import Mathlib

/-!
Verification of `src/workflow/fetch_and_upload.py` (Open Library dump mirror
sync).  The script checks each tracked dump's `Last-Modified` header at the
origin, compares it with a locally persisted manifest and with the mirror
store's LFS metadata, and then skips, reuses the mirror's copy, or fetches
from the origin and re-uploads (in 5 GiB chunks when the payload exceeds the
store's single-file limit).

The embedding below translates the script's decision logic and control flow
into executable Lean definitions.  External collaborators (HTTP requests,
the store client, the filesystem) are modelled as explicit outcome
parameters, and the side effects the claims talk about are recorded as
explicit event traces.  Python `None` is modelled as `Option.none`; a
Python modification marker (a header string) is `Option String`.
-/

/-- The sentinel string returned by `get_hf_last_modified` (line 49 of the
source) when the mirror lists the file but carries no LFS metadata:
`"<no-lfs>"`. -/
def noLfs : String := "<no-lfs>"

/-- `CHUNK_SIZE_BYTES = 5 * 1024 * 1024 * 1024` (line 15 of the source). -/
def CHUNK_SIZE_BYTES : Nat := 5 * 1024 * 1024 * 1024

/-- The `FILES` table of the source (lines 17-21): artifact name paired with
its origin URL. -/
def FILES : List (String × String) :=
  [("ol_dump_authors_latest.txt.gz",
    "https://openlibrary.org/data/ol_dump_authors_latest.txt.gz"),
   ("ol_dump_editions_latest.txt.gz",
    "https://openlibrary.org/data/ol_dump_editions_latest.txt.gz"),
   ("ol_dump_works_latest.txt.gz",
    "https://openlibrary.org/data/ol_dump_works_latest.txt.gz")]

/-- The reuse decision of `try_download_from_hf` (source lines 87-95),
with Python's operator precedence kept exactly: the `elif` condition
`hf_modified is None or hf_modified == "<no-lfs>" and manifest_modified ==
ol_modified` parses as `A or (B and C)`.  `hf` is the mirror lookup result
(`None` = absent/unreachable), `ol` the origin marker, `man` the
manifest-recorded `source_last_modified`. -/
def reuse_ok (hf ol man : Option String) : Bool :=
  if hf == ol then true
  else if (hf == none) || ((hf == some noLfs) && (man == ol)) then true
  else false

/-- Filesystem / store events emitted by `upload_with_chunks`. -/
inductive FsEvent where
  | writePart : String → List Nat → FsEvent
  | uploadPart : String → FsEvent
  | removePart : String → FsEvent
  | uploadSingle : String → FsEvent
deriving DecidableEq

/-- Part-file naming of the chunk loop (source line 166):
`repo_path` itself only when `chunk_idx == 0 and file_size <= CHUNK_SIZE`
(unreachable inside the oversized branch), else `f"{repo_path}.part{idx}"`. -/
def chunk_filename (rp : String) (fileSize c idx : Nat) : String :=
  if idx = 0 ∧ fileSize ≤ c then rp else rp ++ ".part" ++ toString idx

/-- The canonical part name `<repo_path>.part<index>`. -/
def partName (rp : String) (idx : Nat) : String :=
  rp ++ ".part" ++ toString idx

/-- The sequence of windows produced by repeatedly calling
`f.read(CHUNK_SIZE_BYTES)` until it returns empty (source lines 162-165),
on a payload of bytes `xs` with window size `c`. -/
def chunkReads (c : Nat) (xs : List Nat) : List (List Nat) :=
  if h : c = 0 ∨ xs = [] then []
  else xs.take c :: chunkReads c (xs.drop c)
termination_by xs.length
decreasing_by
  push_neg at h
  have h3 : 0 < xs.length := List.length_pos.mpr h.2
  simp only [List.length_drop]
  omega

/-- The oversized-file loop of `upload_with_chunks` (source lines 160-179):
write the window to a temporary part file, upload it (unless `dry_run`) and
remove it.  `ok i` tells whether the store accepts the upload of part `i`;
a rejected upload raises, so the removal is skipped and the loop aborts
with the exception propagating. -/
def chunk_loop (rp : String) (fs c : Nat) (dryRun : Bool) (ok : Nat → Bool) :
    Nat → List (List Nat) → List FsEvent × Except String Unit
  | _, [] => ([], Except.ok ())
  | idx, ch :: rest =>
    let name := chunk_filename rp fs c idx
    if dryRun then
      let r := chunk_loop rp fs c dryRun ok (idx + 1) rest
      (FsEvent.writePart name ch :: FsEvent.removePart name :: r.1, r.2)
    else if ok idx then
      let r := chunk_loop rp fs c dryRun ok (idx + 1) rest
      (FsEvent.writePart name ch :: FsEvent.uploadPart name ::
         FsEvent.removePart name :: r.1, r.2)
    else
      ([FsEvent.writePart name ch, FsEvent.uploadPart name],
       Except.error "upload failed")

/-- `upload_with_chunks` (source lines 132-179).  A payload that fits in one
unit is uploaded whole under its repo path (the internal retry of that
single `upload_file` call, lines 140-157, is collapsed into one event since
no claim concerns it); an oversized payload goes through the chunk loop. -/
def upload_with_chunks (payload : List Nat) (rp : String) (dryRun : Bool)
    (ok : Nat → Bool) (c : Nat) : List FsEvent × Except String Unit :=
  if payload.length ≤ c then
    ((if dryRun then [] else [FsEvent.uploadSingle rp]), Except.ok ())
  else
    chunk_loop rp payload.length c dryRun ok 0 (chunkReads c payload)

/-- Effect of one filesystem event on the set of temporary part files
resident on local storage. -/
def applyEvent (s : List String) : FsEvent → List String
  | FsEvent.writePart n _ => if n ∈ s then s else n :: s
  | FsEvent.uploadPart _ => s
  | FsEvent.removePart n => s.erase n
  | FsEvent.uploadSingle _ => s

/-- Run a trace of filesystem events from a starting set of resident files. -/
def runFs : List String → List FsEvent → List String
  | s, [] => s
  | s, e :: tr => runFs (applyEvent s e) tr

/-- The temporary part files resident on local storage after a trace of
events, starting from an empty working area. -/
def residentAfter (tr : List FsEvent) : List String := runFs [] tr

/-- Network / store / filesystem steps of the per-artifact workflow
`handle_download_and_upload`, in the order the source performs them. -/
inductive Effect where
  | headOrigin
  | queryMirror
  | downloadMirror
  | downloadOrigin
  | upload
  | deleteLocal
  | updateManifest
deriving DecidableEq

/-- How one call of `handle_download_and_upload` ends. -/
inductive HandleOutcome where
  | skipped
  | reusedMirror
  | fetchFailed
  | completed
  | raised : String → HandleOutcome
deriving DecidableEq

/-- Outcomes of the external collaborators for one artifact, as seen by
`handle_download_and_upload`:
* `headResult` — what `get_last_modified` produces after its retries: the
  origin `Last-Modified` header (possibly absent) or the propagated error;
* `manifestMarker` — `manifest.get(filename, {}).get("source_last_modified")`;
* `fileExists` — `os.path.exists(filename)` at entry;
* `hfModified` — what `get_hf_last_modified` returns (`none` when the file
  is absent from the revision or the metadata call fails);
* `mirrorDownloadOk` — whether `hf_hub_download` succeeds within its three
  attempts;
* `originDownloadOk` — whether `download_file` succeeds;
* `txtGz` — `filename.endswith(".txt.gz")`. -/
structure World where
  headResult : Except String (Option String)
  manifestMarker : Option String
  fileExists : Bool
  hfModified : Option String
  mirrorDownloadOk : Bool
  originDownloadOk : Bool
  txtGz : Bool

/-- `handle_download_and_upload` (source lines 181-230) as a trace of
effects plus an outcome.  Faithful points: the up-to-date check (line 186)
returns before touching the mirror; the recovery block (lines 192-204) runs
only when the local file is missing; the local variable `reused` is
assigned only inside that block, so the later `if not reused:` (line 205)
raises `UnboundLocalError` on the branch where the file exists but is
stale; in dry-run mode the network block is skipped entirely and only the
manifest is updated. -/
def handle (dryRun keep : Bool) (w : World) : List Effect × HandleOutcome :=
  if dryRun then ([Effect.updateManifest], HandleOutcome.completed)
  else
    match w.headResult with
    | Except.error e => ([Effect.headOrigin], HandleOutcome.raised e)
    | Except.ok olModified =>
      if (w.manifestMarker == olModified) && w.fileExists then
        ([Effect.headOrigin], HandleOutcome.skipped)
      else if !w.fileExists then
        let reuseAttempt := reuse_ok w.hfModified olModified w.manifestMarker
        let effs := [Effect.headOrigin, Effect.queryMirror] ++
          (if reuseAttempt then [Effect.downloadMirror] else [])
        if reuseAttempt && w.mirrorDownloadOk then
          (effs, HandleOutcome.reusedMirror)
        else if !w.originDownloadOk then
          (effs ++ [Effect.downloadOrigin], HandleOutcome.fetchFailed)
        else
          ((effs ++ [Effect.downloadOrigin, Effect.upload] ++
             (if !keep && !w.txtGz then [Effect.deleteLocal] else []) ++
             [Effect.updateManifest]), HandleOutcome.completed)
      else
        ([Effect.headOrigin],
         HandleOutcome.raised
           "UnboundLocalError: local variable reused referenced before assignment")

/-- The per-artifact loop of `main` (source lines 253-255): the calls to
`handle_download_and_upload` are not wrapped in any `try`, so an exception
raised for one artifact propagates and terminates the whole run. -/
def processFiles (dryRun keep : Bool) : List World → Except String (List HandleOutcome)
  | [] => Except.ok []
  | w :: ws =>
    match handle dryRun keep w with
    | (_, HandleOutcome.raised e) => Except.error e
    | (_, o) =>
      match processFiles dryRun keep ws with
      | Except.error e => Except.error e
      | Except.ok os => Except.ok (o :: os)

/-- `get_last_modified` (source lines 23-34): up to three attempts; after a
failed non-final attempt it sleeps `2 ** attempt` and retries; the third
failure re-raises the underlying error.  `att i` is the outcome of the
`i`-th `requests.head` call.  Result: (final result, attempts executed,
sleeps performed). -/
def get_last_modified (att : Nat → Except String (Option String)) :
    Except String (Option String) × Nat × List Nat :=
  match att 1 with
  | Except.ok v => (Except.ok v, 1, [])
  | Except.error _ =>
    match att 2 with
    | Except.ok v => (Except.ok v, 2, [2])
    | Except.error _ =>
      match att 3 with
      | Except.ok v => (Except.ok v, 3, [2, 4])
      | Except.error e => (Except.error e, 3, [2, 4])

/-- Stage at which a `download_file` attempt fails: at the `requests.get`
call itself (so the context-manager variable `r` is never bound), or after
`r` was bound (bad status / failure while streaming to disk). -/
inductive DlStage where
  | atGet
  | afterGet
deriving DecidableEq

/-- `download_file` (source lines 64-81).  The retry loop carries a stray
duplicated block AFTER the `except` handler (lines 79-81) that re-opens the
target file and iterates `r.iter_content` again; it executes after every
caught (non-final) failure.  If the failed attempt died at `requests.get`,
`r` is unbound there and line 80 raises `NameError`, which nothing catches.
If `r` is bound (from a success of `requests.get` in that attempt or an
earlier one), the stray block reads from the already-closed response; that
external behaviour is the parameter `iterClosed`.  `att i` is the outcome
of the `i`-th attempt of the real body (lines 68-73).  Result: (final
result, attempts executed, sleeps performed). -/
def download_file (att : Nat → Except (DlStage × String) Unit)
    (iterClosed : Except String Unit) :
    Except String Unit × Nat × List Nat :=
  match att 1 with
  | Except.ok _ => (Except.ok (), 1, [])
  | Except.error f1 =>
    if f1.1 = DlStage.atGet then
      (Except.error "NameError: name r is not defined", 1, [2])
    else
      match iterClosed with
      | Except.error e2 => (Except.error e2, 1, [2])
      | Except.ok _ =>
        match att 2 with
        | Except.ok _ => (Except.ok (), 2, [2])
        | Except.error _ =>
          match iterClosed with
          | Except.error e2 => (Except.error e2, 2, [2, 4])
          | Except.ok _ =>
            match att 3 with
            | Except.ok _ => (Except.ok (), 3, [2, 4])
            | Except.error f3 => (Except.error f3.2, 3, [2, 4])

/-- The module-level functions actually defined in
`src/workflow/fetch_and_upload.py`. -/
def moduleFunctions : List String :=
  ["get_last_modified", "get_hf_last_modified", "load_manifest",
   "save_manifest", "download_file", "try_download_from_hf",
   "ensure_branch_exists", "upload_with_chunks",
   "handle_download_and_upload", "main"]

/-- Python truthiness of an `argparse` string option: `None` and the empty
string are falsy. -/
def truthy : Option String → Bool
  | none => false
  | some s => !s.isEmpty

/-- Name resolution of `main`'s dispatch (source lines 244-255): the
`--upload-only` branch calls `handle_upload_only`, a global name the module
never defines, so reaching that branch raises `NameError`.  Branches that
only call defined functions are summarised as `ok` (their internals are
modelled separately by `handle` / `processFiles`). -/
def main_result (only uploadOnly : Option String) : Except String Unit :=
  if truthy only then Except.ok ()
  else if truthy uploadOnly then
    if moduleFunctions.contains "handle_upload_only" then Except.ok ()
    else Except.error "NameError: name handle_upload_only is not defined"
  else Except.ok ()

/-- Concrete collaborator outcomes: the origin HEAD fails irrecoverably. -/
def wHeadFail : World :=
  ⟨Except.error "ConnectionError", none, false, none, true, true, true⟩

/-- Concrete collaborator outcomes: a healthy, already-current artifact. -/
def wHealthy : World :=
  ⟨Except.ok (some "2024-03-01"), some "2024-03-01", true, none, true, true, true⟩

/-! ## Helper lemmas -/

theorem some_beq_none_eq_false (s : String) :
    ((some s : Option String) == none) = false := rfl

theorem none_beq_some_eq_false (s : String) :
    ((none : Option String) == some s) = false := rfl

theorem some_beq_some_iff (a b : String) :
    ((some a : Option String) == some b) = (a == b) := rfl

/-- Characterisation of the reuse decision as a boolean formula. -/
theorem reuse_ok_eq (hf ol man : Option String) :
    reuse_ok hf ol man =
      ((hf == ol) || (hf == none) || ((hf == some noLfs) && (man == ol))) := by
  unfold reuse_ok
  cases h1 : (hf == ol) <;>
    cases h2 : ((hf == none) || ((hf == some noLfs) && (man == ol))) <;>
      simp [h1, h2]

/-! ## C2 — absent/unreachable mirror lookup -/

/-- C2 counterexample.  The claim says: when the mirror lookup returns no
marker at all (`None`), the decision is `FetchOrigin` regardless of the
manifest marker.  At the concrete input: mirror lookup `None`, origin
marker `"2024-02-01"`, manifest marker `"2024-01-01"` (which differs from
the origin marker), the source's condition `hf_modified is None or
hf_modified == "<no-lfs>" and manifest_modified == ol_modified` is true by
Python precedence, so the code decides to reuse the mirror — not
`FetchOrigin`. -/
theorem c2_absent_mirror_counterexample :
    reuse_ok none (some "2024-02-01") (some "2024-01-01") = true ∧
    (some "2024-01-01" : Option String) ≠ some "2024-02-01" := by
  constructor
  · rfl
  · decide

/-- C2 amended: whenever the mirror lookup reports absent/unreachable
(returns `None`) and the local-current check did not apply, the decision is
`ReuseMirror` (a mirror reuse is attempted) for every manifest-recorded
marker and every origin marker; `FetchOrigin` happens only later, as the
fallback when that reuse download fails. -/
theorem c2_amended_absent_mirror_always_reuses (ol man : Option String) :
    reuse_ok none ol man = true := by
  rw [reuse_ok_eq]
  cases ol <;> simp

/-- C2 amended, evaluated at a concrete input. -/
theorem c2_amended_absent_mirror_always_reuses_witness :
    reuse_ok none (some "2024-02-01") (some "2024-01-01") = true :=
  c2_amended_absent_mirror_always_reuses (some "2024-02-01") (some "2024-01-01")

/-! ## C6 — the "present, no marker" sentinel -/

/-- C6 counterexample.  The claim says: when the mirror reports the
"present, no marker" sentinel, the decision is `ReuseMirror` exactly when
the manifest marker equals the origin marker, and `FetchOrigin` when it
differs.  The sentinel is the plain string `"<no-lfs>"`, which lives in the
same string space as origin markers: at origin marker `"<no-lfs>"` and
manifest marker `"2024-01-01"` (≠ origin marker) the source's first test
`hf_modified == ol_modified` fires and the code decides `ReuseMirror`,
contradicting the claimed `FetchOrigin`. -/
theorem c6_sentinel_collision_counterexample :
    reuse_ok (some noLfs) (some noLfs) (some "2024-01-01") = true ∧
    (some "2024-01-01" : Option String) ≠ some noLfs := by
  constructor
  · rfl
  · decide

/-- C6 amended: when the mirror reports the "present, no marker" sentinel,
the decision is `ReuseMirror` exactly when the manifest marker equals the
origin marker OR the origin marker itself equals the sentinel string
`"<no-lfs>"`; otherwise it is `FetchOrigin`. -/
theorem c6_amended_sentinel_rule (ol man : Option String) :
    reuse_ok (some noLfs) ol man =
      (((some noLfs : Option String) == ol) || (man == ol)) := by
  rw [reuse_ok_eq]
  cases h1 : ((some noLfs : Option String) == ol) <;>
    cases h2 : (man == ol) <;>
      simp [h1, h2, some_beq_none_eq_false, some_beq_some_iff]

/-- C6 amended, evaluated at a concrete input. -/
theorem c6_amended_sentinel_rule_witness :
    reuse_ok (some noLfs) (some "2024-02-01") (some "2024-02-01") =
      (((some noLfs : Option String) == some "2024-02-01") ||
        ((some "2024-02-01" : Option String) == some "2024-02-01")) :=
  c6_amended_sentinel_rule (some "2024-02-01") (some "2024-02-01")

/-! ## C7 — mirror marker equals origin marker -/

/-- C7: whenever the mirror's recorded marker equals the origin marker, the
decision is `ReuseMirror` (source line 87: `if hf_modified == ol_modified:
reuse_ok = True`); in the workflow this downloads the mirror's copy and,
when that download succeeds, the artifact is finished with no origin
download and no upload (the `return` at source line 197 precedes the upload
step). -/
theorem c7_mirror_marker_match (hf ol man : Option String)
    (keep txtGz oOk : Bool) (h : hf = ol) :
    reuse_ok hf ol man = true ∧
    (handle false keep ⟨Except.ok ol, man, false, hf, true, oOk, txtGz⟩).2 =
      HandleOutcome.reusedMirror ∧
    Effect.upload ∉
      (handle false keep ⟨Except.ok ol, man, false, hf, true, oOk, txtGz⟩).1 ∧
    Effect.downloadOrigin ∉
      (handle false keep ⟨Except.ok ol, man, false, hf, true, oOk, txtGz⟩).1 ∧
    Effect.downloadMirror ∈
      (handle false keep ⟨Except.ok ol, man, false, hf, true, oOk, txtGz⟩).1 := by
  subst h
  have hro : reuse_ok hf hf man = true := by
    rw [reuse_ok_eq]
    simp [beq_self_eq_true]
  have hh : handle false keep ⟨Except.ok hf, man, false, hf, true, oOk, txtGz⟩ =
      ([Effect.headOrigin, Effect.queryMirror, Effect.downloadMirror],
        HandleOutcome.reusedMirror) := by
    simp [handle, hro]
  refine ⟨hro, ?_, ?_, ?_, ?_⟩ <;> rw [hh] <;> decide

/-- C7 evaluated at a concrete input. -/
theorem c7_mirror_marker_match_witness :
    reuse_ok (some "2024-02-01") (some "2024-02-01") (some "2024-01-01") = true :=
  (c7_mirror_marker_match (some "2024-02-01") (some "2024-02-01")
    (some "2024-01-01") false true true rfl).1

/-! ## C5 — already-current artifact is skipped -/

/-- C5: with dry-run off, when the manifest-recorded marker equals the
freshly obtained origin marker and the local file exists, the workflow
returns at source line 188 having performed only the origin freshness
check: no mirror query, no mirror download, no origin download, no upload —
regardless of the mirror's state (which is never consulted). -/
theorem c5_skip_when_current (keep : Bool) (w : World) (m : Option String)
    (hHead : w.headResult = Except.ok m) (hMan : w.manifestMarker = m)
    (hFile : w.fileExists = true) :
    handle false keep w = ([Effect.headOrigin], HandleOutcome.skipped) ∧
    Effect.queryMirror ∉ (handle false keep w).1 ∧
    Effect.downloadMirror ∉ (handle false keep w).1 ∧
    Effect.downloadOrigin ∉ (handle false keep w).1 ∧
    Effect.upload ∉ (handle false keep w).1 := by
  have hh : handle false keep w = ([Effect.headOrigin], HandleOutcome.skipped) := by
    simp [handle, hHead, hMan, hFile, beq_self_eq_true]
  refine ⟨hh, ?_, ?_, ?_, ?_⟩ <;> rw [hh] <;> decide

/-- C5 evaluated at a concrete input. -/
theorem c5_skip_when_current_witness :
    handle false false wHealthy = ([Effect.headOrigin], HandleOutcome.skipped) :=
  (c5_skip_when_current false wHealthy (some "2024-03-01") rfl rfl rfl).1

/-! ## C1 — stale local file and the `reused` variable -/

/-- C1 evaluation at the failing input.  The claim says that on every
branch the variable recording the mirror-reuse outcome is initialized
before the upload decision reads it, so the workflow reaches the upload
step.  On the branch where the local file exists but the manifest marker
differs from the origin marker (dry-run off), the source skips the
recovery block (lines 192-204) that is the only place assigning `reused`,
and then evaluates `if not reused:` at line 205: Python raises
`UnboundLocalError`, so the upload step is never reached. -/
theorem c1_stale_local_file_raises_unbound_local :
    handle false false
        ⟨Except.ok (some "2024-02-01"), some "2024-01-01", true, none, true, true, true⟩ =
      ([Effect.headOrigin],
        HandleOutcome.raised
          "UnboundLocalError: local variable reused referenced before assignment") ∧
    Effect.upload ∉
      (handle false false
        ⟨Except.ok (some "2024-02-01"), some "2024-01-01", true, none, true, true, true⟩).1 := by
  constructor
  · rfl
  · decide

/-! ## C3 — origin HEAD failure terminates the run -/

/-- C3 counterexample.  The claim says an origin freshness check that still
fails after all retries is fatal for that artifact only and the run
continues with the remaining artifacts.  In the source, neither line 183
nor the loop at lines 253-255 wraps `handle_download_and_upload` in a
`try`, so the propagated error terminates the run: with a first artifact
whose HEAD fails irrecoverably and a healthy second artifact, the whole
run ends in the error and the second artifact is never processed (alone,
it would have been skipped as current). -/
theorem c3_head_failure_aborts_run_counterexample :
    processFiles false false [wHeadFail, wHealthy] =
      Except.error "ConnectionError" ∧
    processFiles false false [wHealthy] =
      Except.ok [HandleOutcome.skipped] := by
  constructor <;> rfl

/-- C3 amended: when an artifact's origin freshness check fails after all
retry attempts, the error propagates uncaught out of
`handle_download_and_upload` and terminates the whole run at that artifact;
the remaining artifacts are not processed and no per-artifact outcome list
is produced. -/
theorem c3_amended_head_failure_propagates (keep : Bool) (w : World)
    (ws : List World) (e : String) (h : w.headResult = Except.error e) :
    processFiles false keep (w :: ws) = Except.error e := by
  simp [processFiles, handle, h]

/-- C3 amended, evaluated at a concrete input. -/
theorem c3_amended_head_failure_propagates_witness :
    processFiles false true [wHeadFail, wHealthy] = Except.error "ConnectionError" :=
  c3_amended_head_failure_propagates true wHeadFail [wHealthy] "ConnectionError" rfl

/-! ## C8 — retry loops -/

/-- C8 evaluation.  The claim says every retried network operation executes
up to 3 attempts, sleeps `2^attempt` after each failed non-final attempt,
genuinely re-executes the operation, and after the 3rd failure propagates
the final underlying error.  `get_last_modified` satisfies this (first
conjunct: three attempts, sleeps 2 and 4, the underlying error
propagated).  `download_file` does not: because of the stray duplicated
block after its `except` handler (source lines 79-81), an attempt that
fails at `requests.get` leaves `r` unbound, and after the first backoff
sleep the stray `r.iter_content` raises `NameError` — so with every
attempt failing at `requests.get`, only 1 attempt is executed and the
propagated error is the `NameError`, not the underlying network error
(second conjunct). -/
theorem c8_download_retry_is_broken :
    get_last_modified (fun _ => Except.error "ConnectionError") =
      (Except.error "ConnectionError", 3, [2, 4]) ∧
    download_file (fun _ => Except.error (DlStage.atGet, "ConnectionError"))
        (Except.ok ()) =
      (Except.error "NameError: name r is not defined", 1, [2]) := by
  constructor <;> rfl

/-! ## C10 — the --upload-only branch -/

/-- C10: for every invocation with `--upload-only` set to any (non-empty,
hence truthy) artifact name and no `--only` selection, `main` reaches the
call `handle_upload_only(name, manifest, dry_run=args.dry_run)` at source
line 252; that global name is defined nowhere in the module, so execution
raises `NameError` and upload-only mode can never complete successfully. -/
theorem c10_upload_only_raises_name_error (name : String)
    (h : truthy (some name) = true) :
    main_result none (some name) =
      Except.error "NameError: name handle_upload_only is not defined" := by
  have h2 : name.isEmpty = false := by simpa [truthy] using h
  simp [main_result, truthy, h2, moduleFunctions]

/-- C10 evaluated at a concrete artifact name (the first entry of `FILES`). -/
theorem c10_upload_only_raises_name_error_witness :
    main_result none (some "ol_dump_authors_latest.txt.gz") =
      Except.error "NameError: name handle_upload_only is not defined" :=
  c10_upload_only_raises_name_error "ol_dump_authors_latest.txt.gz" (by decide)

/-! ## Chunking lemmas -/

theorem chunkReads_nil (c : Nat) : chunkReads c [] = [] := by
  rw [chunkReads]
  simp

theorem chunkReads_cons (c : Nat) (xs : List Nat) (hc : c ≠ 0) (hx : xs ≠ []) :
    chunkReads c xs = xs.take c :: chunkReads c (xs.drop c) := by
  rw [chunkReads]
  simp [hc, hx]

theorem chunkReads_length (c : Nat) (hc : c ≠ 0) :
    ∀ n xs, List.length xs ≤ n → xs ≠ [] →
      (chunkReads c xs).length = (xs.length - 1) / c + 1 := by
  intro n
  induction n with
  | zero =>
    intro xs hlen hne
    exact absurd (List.length_eq_zero.mp (Nat.le_zero.mp hlen)) hne
  | succ n ih =>
    intro xs hlen hne
    have h1 : 0 < xs.length := List.length_pos.mpr hne
    rw [chunkReads_cons c xs hc hne]
    by_cases hd : xs.drop c = []
    · rw [hd, chunkReads_nil]
      have h2 : xs.length - c = 0 := by simpa using congrArg List.length hd
      have h3 : (xs.length - 1) / c = 0 := Nat.div_eq_of_lt (by omega)
      simp [h3]
    · have hdlen : (xs.drop c).length ≤ n := by
        simp only [List.length_drop]
        omega
      rw [List.length_cons, ih (xs.drop c) hdlen hd]
      simp only [List.length_drop]
      have hcx : c < xs.length := by
        by_contra hcon
        push_neg at hcon
        exact hd (List.drop_eq_nil_of_le hcon)
      have h4 : xs.length - c - 1 + c = xs.length - 1 := by omega
      calc (xs.length - c - 1) / c + 1 + 1
          = (xs.length - c - 1 + c) / c + 1 := by
            rw [Nat.add_div_right _ (Nat.pos_of_ne_zero hc)]
        _ = (xs.length - 1) / c + 1 := by rw [h4]

theorem chunkReads_sizes (c : Nat) (hc : c ≠ 0) :
    ∀ n xs i, List.length xs ≤ n → i + 1 < (chunkReads c xs).length →
      ((chunkReads c xs).getD i []).length = c := by
  intro n
  induction n with
  | zero =>
    intro xs i hlen hi
    have hx : xs = [] := List.length_eq_zero.mp (Nat.le_zero.mp hlen)
    subst hx
    rw [chunkReads_nil] at hi
    simp at hi
  | succ n ih =>
    intro xs i hlen hi
    by_cases hne : xs = []
    · subst hne
      rw [chunkReads_nil] at hi
      simp at hi
    have h1 : 0 < xs.length := List.length_pos.mpr hne
    rw [chunkReads_cons c xs hc hne] at hi ⊢
    cases i with
    | zero =>
      have hr : chunkReads c (xs.drop c) ≠ [] := by
        intro hnil
        rw [hnil] at hi
        simp at hi
      have hd : xs.drop c ≠ [] := by
        intro hnil
        exact hr (by rw [hnil, chunkReads_nil])
      have hcx : c < xs.length := by
        by_contra hcon
        push_neg at hcon
        exact hd (List.drop_eq_nil_of_le hcon)
      rw [List.getD_cons_zero, List.length_take]
      omega
    | succ j =>
      rw [List.getD_cons_succ]
      have hdlen : (xs.drop c).length ≤ n := by
        simp only [List.length_drop]
        omega
      have hj : j + 1 < (chunkReads c (xs.drop c)).length := by
        simp only [List.length_cons] at hi
        omega
      exact ih (xs.drop c) j hdlen hj

theorem chunkReads_concat (c : Nat) (hc : c ≠ 0) :
    ∀ n xs k, List.length xs ≤ n → k < (chunkReads c xs).length →
      ((chunkReads c xs).take (k + 1)).flatten =
        xs.take (k * c + ((chunkReads c xs).getD k []).length) := by
  intro n
  induction n with
  | zero =>
    intro xs k hlen hk
    have hx : xs = [] := List.length_eq_zero.mp (Nat.le_zero.mp hlen)
    subst hx
    rw [chunkReads_nil] at hk
    simp at hk
  | succ n ih =>
    intro xs k hlen hk
    by_cases hne : xs = []
    · subst hne
      rw [chunkReads_nil] at hk
      simp at hk
    have h1 : 0 < xs.length := List.length_pos.mpr hne
    rw [chunkReads_cons c xs hc hne] at hk ⊢
    cases k with
    | zero =>
      rw [List.getD_cons_zero, List.take_succ_cons, List.take_zero]
      rw [List.flatten_cons, List.flatten_nil, List.append_nil]
      rw [List.length_take, Nat.zero_mul, Nat.zero_add]
      rcases Nat.le_total c xs.length with hle | hge
      · rw [Nat.min_eq_left hle]
      · rw [Nat.min_eq_right hge, List.take_length, List.take_of_length_le hge]
    | succ j =>
      rw [List.getD_cons_succ, List.take_succ_cons, List.flatten_cons]
      have hdlen : (xs.drop c).length ≤ n := by
        simp only [List.length_drop]
        omega
      have hj : j < (chunkReads c (xs.drop c)).length := by
        simp only [List.length_cons] at hk
        omega
      rw [ih (xs.drop c) j hdlen hj]
      have harith : (j + 1) * c + ((chunkReads c (xs.drop c)).getD j []).length =
          c + (j * c + ((chunkReads c (xs.drop c)).getD j []).length) := by ring
      rw [harith]
      conv_rhs => rw [List.take_add]

theorem chunk_filename_big (rp : String) (fs c idx : Nat) (h : c < fs) :
    chunk_filename rp fs c idx = partName rp idx := by
  unfold chunk_filename partName
  rw [if_neg]
  rintro ⟨-, hle⟩
  omega

theorem chunk_loop_trace (rp : String) (fs c : Nat) (ok : Nat → Bool)
    (hok : ∀ i, ok i = true) (hfs : c < fs) :
    ∀ chunks idx,
      chunk_loop rp fs c false ok idx chunks =
        (((chunks.enumFrom idx).map fun p =>
            [FsEvent.writePart (partName rp p.1) p.2,
             FsEvent.uploadPart (partName rp p.1),
             FsEvent.removePart (partName rp p.1)]).flatten, Except.ok ()) := by
  intro chunks
  induction chunks with
  | nil => intro idx; rfl
  | cons ch rest ih =>
    intro idx
    simp [chunk_loop, hok idx, chunk_filename_big rp fs c idx hfs, ih (idx + 1),
      List.enumFrom]

theorem chunk_loop_resident (rp : String) (fs c : Nat) (dryRun : Bool)
    (ok : Nat → Bool) :
    ∀ chunks idx k,
      (runFs [] (((chunk_loop rp fs c dryRun ok idx chunks).1).take k)).length ≤ 1 := by
  cases dryRun with
  | true =>
    intro chunks
    induction chunks with
    | nil =>
      intro idx k
      simp [chunk_loop, runFs]
    | cons ch rest ih =>
      intro idx k
      rcases k with _ | _ | k
      · simp [runFs]
      · simp [chunk_loop, List.take_succ_cons, runFs, applyEvent]
      · simp only [chunk_loop, eq_self_iff_true, if_true]
        rw [List.take_succ_cons, List.take_succ_cons]
        simp only [runFs, applyEvent, List.not_mem_nil, if_false,
          List.erase_cons_head]
        exact ih (idx + 1) k
  | false =>
    intro chunks
    induction chunks with
    | nil =>
      intro idx k
      simp [chunk_loop, runFs]
    | cons ch rest ih =>
      intro idx k
      by_cases ho : ok idx = true
      · rcases k with _ | _ | _ | k
        · simp [runFs]
        · simp [chunk_loop, ho, List.take_succ_cons, runFs, applyEvent]
        · simp [chunk_loop, ho, List.take_succ_cons, runFs, applyEvent]
        · simp only [chunk_loop, ho, Bool.false_eq_true, if_false, if_true]
          rw [List.take_succ_cons, List.take_succ_cons, List.take_succ_cons]
          simp only [runFs, applyEvent, List.not_mem_nil, if_false,
            List.erase_cons_head]
          exact ih (idx + 1) k
      · rcases k with _ | _ | k
        · simp [runFs]
        · simp [chunk_loop, ho, List.take_succ_cons, runFs, applyEvent]
        · simp [chunk_loop, ho, List.take_succ_cons, runFs, applyEvent]

theorem chunk_loop_resident_final (rp : String) (fs c : Nat) (ok : Nat → Bool)
    (hok : ∀ i, ok i = true) :
    ∀ chunks idx, runFs [] ((chunk_loop rp fs c false ok idx chunks).1) = [] := by
  intro chunks
  induction chunks with
  | nil => intro idx; rfl
  | cons ch rest ih =>
    intro idx
    simp only [chunk_loop, hok idx, if_true, Bool.false_eq_true, if_false]
    simp only [runFs, applyEvent, List.not_mem_nil, if_false,
      List.erase_cons_head]
    exact ih (idx + 1)

/-! ## C4 — chunked upload contract -/

/-- C4: for a payload of size `S` strictly greater than the chunk size `c`
(and every upload accepted, dry-run off), the chunk loop produces exactly
`⌈S/c⌉ = (S + c - 1) / c` parts; every part except the last has size
exactly `c`; concatenating parts `0..k` in index order reproduces the
first `k*c + size(part_k)` bytes of the payload; and the emitted trace is
exactly, for each part index in increasing order, a write of that window
to `<repo_path>.part<index>`, an upload under that same name, and its
removal. -/
theorem c4_chunked_upload_contract (payload : List Nat) (c : Nat) (rp : String)
    (ok : Nat → Bool) (hc : 0 < c) (hS : c < payload.length)
    (hok : ∀ i, ok i = true) :
    (chunkReads c payload).length = (payload.length + c - 1) / c ∧
    (∀ i, i + 1 < (chunkReads c payload).length →
      ((chunkReads c payload).getD i []).length = c) ∧
    (∀ k, k < (chunkReads c payload).length →
      ((chunkReads c payload).take (k + 1)).flatten =
        payload.take (k * c + ((chunkReads c payload).getD k []).length)) ∧
    upload_with_chunks payload rp false ok c =
      ((((chunkReads c payload).enum).map fun p =>
          [FsEvent.writePart (partName rp p.1) p.2,
           FsEvent.uploadPart (partName rp p.1),
           FsEvent.removePart (partName rp p.1)]).flatten, Except.ok ()) := by
  have hc0 : c ≠ 0 := Nat.pos_iff_ne_zero.mp hc
  have hne : payload ≠ [] := by
    intro h
    rw [h] at hS
    simp at hS
  have h1 : 0 < payload.length := List.length_pos.mpr hne
  refine ⟨?_, ?_, ?_, ?_⟩
  · rw [chunkReads_length c hc0 payload.length payload le_rfl hne]
    have h2 : payload.length + c - 1 = payload.length - 1 + c := by omega
    rw [h2, Nat.add_div_right _ hc]
  · intro i hi
    exact chunkReads_sizes c hc0 payload.length payload i le_rfl hi
  · intro k hk
    exact chunkReads_concat c hc0 payload.length payload k le_rfl hk
  · unfold upload_with_chunks
    rw [if_neg (by omega)]
    exact chunk_loop_trace rp payload.length c ok hok hS (chunkReads c payload) 0

/-- C4 evaluated at a concrete input: a 5-byte payload with chunk size 2
yields `⌈5/2⌉ = 3` parts. -/
theorem c4_chunked_upload_contract_witness :
    (chunkReads 2 ([0, 1, 2, 3, 4] : List Nat)).length =
      (([0, 1, 2, 3, 4] : List Nat).length + 2 - 1) / 2 :=
  (c4_chunked_upload_contract [0, 1, 2, 3, 4] 2 "ol_dump_works_latest.txt.gz"
    (fun _ => true) (by decide) (by decide) (fun _ => rfl)).1

/-! ## C9 — bounded residency of temporary parts -/

/-- C9: throughout any chunked upload (payload strictly larger than the
chunk size), at most one temporary part file is resident on local storage
after any prefix of the emitted trace — for every pattern of per-part
upload successes and failures, and in dry-run too.  Moreover when every
upload succeeds (dry-run off), each part having been removed right after
its upload, no temporary part remains at the end. -/
theorem c9_at_most_one_resident_part (payload : List Nat) (c : Nat)
    (rp : String) (ok : Nat → Bool) (dryRun : Bool)
    (hc : 0 < c) (hS : c < payload.length) :
    (∀ k, (residentAfter
        (((upload_with_chunks payload rp dryRun ok c).1).take k)).length ≤ 1) ∧
    ((∀ i, ok i = true) → dryRun = false →
      residentAfter (upload_with_chunks payload rp dryRun ok c).1 = []) := by
  constructor
  · intro k
    unfold upload_with_chunks residentAfter
    rw [if_neg (by omega)]
    exact chunk_loop_resident rp payload.length c dryRun ok (chunkReads c payload) 0 k
  · intro hok hdr
    subst hdr
    unfold upload_with_chunks residentAfter
    rw [if_neg (by omega)]
    exact chunk_loop_resident_final rp payload.length c ok hok (chunkReads c payload) 0

/-- C9 evaluated at a concrete input where the second part's upload fails. -/
theorem c9_at_most_one_resident_part_witness :
    (residentAfter (((upload_with_chunks [0, 1, 2] "ol" false
        (fun i => decide (i = 0)) 1).1).take 2)).length ≤ 1 :=
  (c9_at_most_one_resident_part [0, 1, 2] 1 "ol" (fun i => decide (i = 0)) false
    (by decide) (by decide)).1 2
